import Mathlib

/-!
Verification of the ink-language-server core against its specification.

This file shallowly embeds the parts of the TypeScript source that the
claims refer to:

* `getDiagnosticSeverityFromInkErrorType`, `mkDiagnostic` and
  `notifyClientAndPushDiagnostics` from
  `src/helpers/Class/DiagnosticManager.ts` (same loop as the
  `notifyClientAndPushDiagnostics` function in `src/server.ts` and the
  severity mapping in `src/utils.ts`);
* the singleton `inklecateProcess` slot with its `exit` handler from
  `src/inklecate.ts` (`spawnInklecate`, `chooseOption`);
* `CommandRunner.executeCompileCommand` / `playStory` from
  `src/helpers/Class/CommandRunner.ts` together with
  `InklecateBackend.compileStory` / `runStory` argument construction;
* `isInkFile` from `src/helpers/utils.ts`;
* `isFilePathChildOfDirPath` from `src/utils.ts` (Node's `path.relative`,
  `path.isAbsolute` and JavaScript's `String.prototype.startsWith` are
  modelled explicitly);
* `parseErrorsOrRenderStory` from `src/inklecate.ts` (the same
  line-classification loop as `InklecateBackend.parseErrorsOrRenderStory`).

Machine-level JavaScript concerns (event loop, real processes, real file
systems) are represented as explicit data: file systems are partial maps,
process lifecycles are event traces, and client-visible effects are lists
of events in emission order.
-/

/-! ## Basic JavaScript / Node.js helpers -/

/-- Model of JavaScript's `String.prototype.startsWith`: character-level
sequence prefix. -/
def jsStartsWith (s p : String) : Bool :=
  p.data.isPrefixOf s.data

/-- Whitespace recognised by JavaScript's `String.prototype.trim`
(ASCII subset: space, tab, line feed, carriage return, vertical tab,
form feed). -/
def isJsWs (c : Char) : Bool :=
  c = ' ' || c = '\t' || c = '\n' || c = '\r' || c.toNat = 11 || c.toNat = 12

/-- Model of JavaScript's `String.prototype.trim`: drop leading and
trailing whitespace. -/
def jsTrim (s : String) : String :=
  ⟨((s.data.dropWhile isJsWs).reverse.dropWhile isJsWs).reverse⟩

/-- Split a character list at every occurrence of `sep`, keeping empty
pieces, as JavaScript's `String.prototype.split` does for a
single-character separator. -/
def splitCharList (sep : Char) : List Char → List (List Char)
  | [] => [[]]
  | c :: cs =>
    if c = sep then [] :: splitCharList sep cs
    else
      match splitCharList sep cs with
      | [] => [[c]]
      | h :: t => (c :: h) :: t

/-- String-level wrapper around `splitCharList`. -/
def splitOnChar (sep : Char) (s : String) : List String :=
  (splitCharList sep s.data).map String.mk

/-- Strip a single leading byte-order mark (U+FEFF), modelling the
`text.replace` with the BOM regular expression that opens the parser and
the stderr handler. -/
def stripBom (s : String) : String :=
  match s.data with
  | c :: rest => if c.toNat = 0xFEFF then ⟨rest⟩ else s
  | [] => s

/-- Decimal value of a digit string, modelling `parseInt` on the digit
captures produced by the diagnostic regular expression. -/
def parseNatDigits (l : List Char) : Nat :=
  l.foldl (fun a c => a * 10 + (c.toNat - 48)) 0

/-- Model of `vscode-uri`'s `URI.parse(uri).fsPath` for POSIX `file://`
URIs: strip the scheme, otherwise return the string unchanged. -/
def uriFsPath (uri : String) : String :=
  if jsStartsWith uri "file://" then ⟨uri.data.drop 7⟩ else uri

/-! ## POSIX path model (Node's `path` module)

`normSegs` models `path.normalize`'s segment processing (used by
`path.join`); `resolveInto` models `path.resolve`'s stack for absolute
paths (`..` clamped at the root, which is also the behaviour relevant to
`path.relative`, whose inputs are resolved first). -/

/-- Segment normalisation used by `path.normalize` / `path.join`: empty
and `.` segments vanish, `..` pops a previous real segment, and unmatched
`..` segments are kept for relative paths but dropped at the root of
absolute paths. The accumulator holds already-processed segments in
reverse order. -/
def normSegs (abs : Bool) (stack : List String) : List String → List String
  | [] => stack.reverse
  | seg :: rest =>
    if seg = "" ∨ seg = "." then normSegs abs stack rest
    else if seg = ".." then
      match stack with
      | top :: t => if top = ".." then normSegs abs (".." :: top :: t) rest else normSegs abs t rest
      | [] => if abs then normSegs abs [] rest else normSegs abs [".."] rest
    else normSegs abs (seg :: stack) rest

/-- Model of Node's `path.posix.normalize`. -/
def normalizePosix (p : String) : String :=
  let abs := jsStartsWith p "/"
  let out := normSegs abs [] (splitOnChar '/' p)
  let body := String.intercalate "/" out
  if abs then "/" ++ body else if body = "" then "." else body

/-- Model of Node's `path.posix.join` for three string arguments:
concatenate the non-empty parts with `/` and normalize. -/
def pathJoin3 (a b c : String) : String :=
  normalizePosix (String.intercalate "/" (([a, b, c]).filter (fun s => ¬(s = ""))))

/-- Resolution stack of `path.posix.resolve` for a path interpreted
against the root: empty and `.` segments vanish and `..` pops (clamped at
the root). The accumulator is in reverse order; the result is in path
order. -/
def resolveInto (stack : List String) : List String → List String
  | [] => stack.reverse
  | seg :: rest =>
    if seg = "" ∨ seg = "." then resolveInto stack rest
    else if seg = ".." then resolveInto stack.tail rest
    else resolveInto (seg :: stack) rest

/-- Resolved segment list of a path (Node's `path.posix.resolve` with the
root as working directory), the form in which `path.relative` compares
its two arguments. -/
def resolvePosix (s : String) : List String :=
  resolveInto [] (splitOnChar '/' s)

/-- Well-formedness of a segment produced by path resolution: non-empty,
not a `.` or `..` marker, and containing no separator. -/
def validSeg (s : String) : Prop :=
  s ≠ "" ∧ s ≠ "." ∧ s ≠ ".." ∧ '/' ∉ s.data

/-- Length of the longest common prefix of two segment lists, as used by
`path.relative`. -/
def cpl : List String → List String → Nat
  | a :: as, b :: bs => if a = b then cpl as bs + 1 else 0
  | _, _ => 0

/-- Segment list of Node's `path.posix.relative(fromP, toP)` after both
sides are resolved: one `..` per remaining segment of `fromP`, followed
by the remaining segments of `toP`. -/
def nodeRelativeSegs (fromSegs toSegs : List String) : List String :=
  List.replicate (fromSegs.length - cpl fromSegs toSegs) ".." ++ toSegs.drop (cpl fromSegs toSegs)

/-- Join segments with `/`, modelling JavaScript's `Array.prototype.join`
used by `path.relative` to produce its result string. -/
def joinSlash : List String → String
  | [] => ""
  | [s] => s
  | s :: rest => s ++ "/" ++ joinSlash rest

/-- Model of Node's `path.posix.relative`. -/
def nodeRelative (fromP toP : String) : String :=
  joinSlash (nodeRelativeSegs (resolvePosix fromP) (resolvePosix toP))

/-- Model of Node's `path.posix.isAbsolute`. -/
def posixIsAbsolute (s : String) : Bool :=
  jsStartsWith s "/"

/-! ## PathMapper: `isFilePathChildOfDirPath` (src/utils.ts lines 18-21) -/

/-- Embedding of `isFilePathChildOfDirPath` from `src/utils.ts`:
`const relative = Path.relative(dirPath, filePath); return !!relative &&
!relative.startsWith("..") && !Path.isAbsolute(relative);`. -/
def isFilePathChildOfDirPath (filePath dirPath : String) : Bool :=
  let relative := nodeRelative dirPath filePath
  (!(relative == "")) && (!(jsStartsWith relative "..")) && (!(posixIsAbsolute relative))

/-- Spec-side predicate (section 8 of the specification): `filePath`,
after `..` resolution, lies strictly within `dirPath`'s resolved tree. -/
def strictlyWithin (filePath dirPath : String) : Prop :=
  resolvePosix dirPath <+: resolvePosix filePath ∧ resolvePosix dirPath ≠ resolvePosix filePath

instance (p d : String) : Decidable (strictlyWithin p d) := by
  unfold strictlyWithin; infer_instance

/-! ## Diagnostics data model -/

/-- The five tool-reported diagnostic kinds (`InkErrorType` in
`src/types/types.ts`, a string enum). -/
inductive InkErrorType
  | Error
  | Warning
  | RuntimeError
  | RuntimeWarning
  | Todo
deriving DecidableEq, Repr

/-- String value of the TypeScript string enum, used by template-literal
interpolation of an `InkErrorType`. -/
def InkErrorType.toStr : InkErrorType → String
  | .Error => "ERROR"
  | .Warning => "WARNING"
  | .RuntimeError => "RUNTIME ERROR"
  | .RuntimeWarning => "RUNTIME WARNING"
  | .Todo => "TODO"

/-- Embedding of `InkErrorType.parse` from `src/types/types.ts`. -/
def InkErrorType.parse (errorType : String) : Option InkErrorType :=
  match errorType with
  | "ERROR" => some InkErrorType.Error
  | "WARNING" => some InkErrorType.Warning
  | "RUNTIME ERROR" => some InkErrorType.RuntimeError
  | "RUNTIME WARNING" => some InkErrorType.RuntimeWarning
  | "TODO" => some InkErrorType.Todo
  | _ => none

/-- `InkError` from `src/types/types.ts`: one tool-reported problem. -/
structure InkError where
  filePath : String
  lineNumber : Nat
  message : String
  type : InkErrorType
deriving DecidableEq, Repr

/-- LSP `DiagnosticSeverity`. -/
inductive DiagnosticSeverity
  | Error
  | Warning
  | Information
  | Hint
deriving DecidableEq, Repr

/-- Embedding of `getDiagnosticSeverityFromInkErrorType` from
`src/utils.ts` lines 27-40. -/
def getDiagnosticSeverityFromInkErrorType (type : InkErrorType) : DiagnosticSeverity :=
  match type with
  | InkErrorType.RuntimeError => DiagnosticSeverity.Error
  | InkErrorType.Error => DiagnosticSeverity.Error
  | InkErrorType.RuntimeWarning => DiagnosticSeverity.Warning
  | InkErrorType.Warning => DiagnosticSeverity.Warning
  | InkErrorType.Todo => DiagnosticSeverity.Information

/-- LSP `Diagnostic` as constructed by `notifyClientAndPushDiagnostics`
(range is flattened into its four coordinates; line numbers may go
negative in the original JavaScript, hence `Int`). -/
structure Diagnostic where
  severity : DiagnosticSeverity
  rangeStartLine : Int
  rangeStartChar : Nat
  rangeEndLine : Int
  rangeEndChar : Nat
  message : String
  origin : String
deriving DecidableEq, Repr

/-- Diagnostic construction from
`DiagnosticManager.notifyClientAndPushDiagnostics`
(`src/helpers/Class/CommandRunner.ts` concatenation, lines 388-404):
severity from the kind, a one-line range, and the message prefixed with
`Todo: ` for the Todo kind. The `source: "inklecate"` field is the
`origin` field here. -/
def mkDiagnostic (error : InkError) : Diagnostic :=
  { severity := getDiagnosticSeverityFromInkErrorType error.type
    rangeStartLine := (error.lineNumber : Int) - 1
    rangeStartChar := 0
    rangeEndLine := (error.lineNumber : Int)
    rangeEndChar := 0
    message := if error.type = InkErrorType.Todo then "Todo: " ++ error.message else error.message
    origin := "inklecate" }

/-- An open text document as seen through the document manager (only its
URI is relevant to the publish loop). -/
structure TextDoc where
  uri : String
deriving DecidableEq, Repr

/-- Client-visible effects of the publish step, in emission order. -/
inductive NotifyEvent
  | didCompileStory (workspaceUri storyUri : String)
  | publishDiagnostics (uri : String) (diagnostics : List Diagnostic)
deriving DecidableEq, Repr

/-- The diagnostics collected for one open document in one compile cycle:
every parsed error whose `filePath` equals the document's filesystem path,
in parse order (the inner `for (const error of errors)` loop). -/
def diagnosticsFor (td : TextDoc) (errors : List InkError) : List Diagnostic :=
  errors.filterMap (fun e => if uriFsPath td.uri = e.filePath then some (mkDiagnostic e) else none)

/-- Embedding of `DiagnosticManager.notifyClientAndPushDiagnostics`
(identical loop in `src/server.ts` lines 309-349): for every open
document, build its diagnostics from the cycle's errors; if that list is
empty, send a `didCompileStory` notification; then publish the list. -/
def notifyClientAndPushDiagnostics (docs : List TextDoc) (workspaceFolderUri outputStoryPath : String)
    (errors : List InkError) : List NotifyEvent :=
  docs.flatMap (fun td =>
    (if (diagnosticsFor td errors).length = 0 then
      [NotifyEvent.didCompileStory workspaceFolderUri ("file://" ++ outputStoryPath)]
    else []) ++ [NotifyEvent.publishDiagnostics td.uri (diagnosticsFor td errors)])

/-- Number of `didCompileStory` notifications among the emitted events. -/
def countDidCompile (evs : List NotifyEvent) : Nat :=
  evs.countP (fun ev => match ev with
    | NotifyEvent.didCompileStory _ _ => true
    | _ => false)

/-- The publish actions among the emitted events, as (uri, payload)
pairs in order. -/
def publishes (evs : List NotifyEvent) : List (String × List Diagnostic) :=
  evs.filterMap (fun ev => match ev with
    | NotifyEvent.publishDiagnostics u d => some (u, d)
    | _ => none)

/-! ## ProcessSupervisor: the singleton `inklecateProcess` slot

`src/inklecate.ts` keeps one module-level variable
`let inklecateProcess: ChildProcess | undefined`. `spawnInklecate`
overwrites it with the newly spawned process (lines 249-254) and attaches
an exit listener that assigns `undefined` to the module variable
unconditionally (lines 321-323) — the closure does not check whether the
variable still refers to the process that exited. `chooseOption` writes
to the slot's stdin when the slot is occupied (lines 204-208). -/

/-- Lifecycle events observable by the slot: a process (identified by a
number) is spawned, or a previously spawned process fires `exit`. -/
inductive ProcEvent
  | spawn (pid : Nat)
  | exited (pid : Nat)
deriving DecidableEq, Repr

/-- One step of the slot state: spawning stores the new process handle;
the exit listener of any spawned process assigns `undefined`
unconditionally, whichever process the slot currently holds. -/
def slotStep (slot : Option Nat) : ProcEvent → Option Nat
  | ProcEvent.spawn p => some p
  | ProcEvent.exited _ => none

/-- Slot contents after a sequence of lifecycle events, starting from the
initial empty slot. -/
def runTrace (events : List ProcEvent) : Option Nat :=
  events.foldl slotStep none

/-- Embedding of `chooseOption` from `src/inklecate.ts`: write
`"<index>\n"` to the slot's process when occupied, otherwise do nothing.
The result records the (pid, index) writes performed. -/
def chooseOption (slot : Option Nat) (index : Nat) : List (Nat × Nat) :=
  match slot with
  | some p => [(p, index)]
  | none => []

/-! ## CommandRunner and InklecateBackend dispatch -/

/-- Argument vector built by `spawnInklecate`
(`src/inklecate.ts` lines 239-247 / `InklecateBackend.spawnInklecate`):
play mode passes `-p`, compile mode passes `-o <story>.json`; under mono
the executable path is prepended. -/
def spawnInklecateArgs (isPlaying runThroughMono : Bool)
    (inklecateExecutablePath outputStoryPath mainStoryTempPath : String) : List String :=
  if isPlaying then
    if runThroughMono then [inklecateExecutablePath, "-p", mainStoryTempPath]
    else ["-p", mainStoryTempPath]
  else
    if runThroughMono then [inklecateExecutablePath, "-o", outputStoryPath, mainStoryTempPath]
    else ["-o", outputStoryPath, mainStoryTempPath]

/-- Which backend capability `CommandRunner` invokes. -/
inductive BackendCall
  | compile
  | run
deriving DecidableEq, Repr

/-- Embedding of `CommandRunner.executeCompileCommand`
(`src/helpers/Class/CommandRunner.ts` lines 107-127): bail out when the
workspace cannot compile yet; otherwise invoke
`this.compiler.compileStory` — the `play` flag only selects a
`StoryRenderer` local that is never used, and `this.runner.runStory` is
never called. -/
def executeCompileCommand (canCompile play : Bool) : Option BackendCall :=
  if !canCompile then none
  else
    let _storyRendererUsed := play
    some BackendCall.compile

/-- Spawn arguments ultimately produced by a command dispatched through
`CommandRunner` and `InklecateBackend` (`compileStory` runs
`runInklecate` with `isPlaying = false`, `runStory` with
`isPlaying = true`). -/
def commandRunnerSpawnArgs (canCompile play runThroughMono : Bool)
    (inklecateExecutablePath outputStoryPath mainStoryTempPath : String) : Option (List String) :=
  (executeCompileCommand canCompile play).map (fun call =>
    match call with
    | BackendCall.compile =>
      spawnInklecateArgs false runThroughMono inklecateExecutablePath outputStoryPath mainStoryTempPath
    | BackendCall.run =>
      spawnInklecateArgs true runThroughMono inklecateExecutablePath outputStoryPath mainStoryTempPath)

/-! ## FileFilter: `isInkFile` (src/helpers/utils.ts) -/

/-- A file-system entry as observed by `Fs.lstatSync`. -/
inductive FsEntry
  | dir
  | file
deriving DecidableEq, Repr

/-- A file system: paths to entries; `none` means the path does not exist
(`lstatSync` throws). -/
def FileSystem : Type := String → Option FsEntry

/-- The extension test of `isInkFile`:
`const extension = filePath.split(".").pop() || ""`, reject a bare name
equal to its own extension, then membership in `INK_EXTENSIONS`. -/
def inkExtensionCheck (filePath : String) : Bool :=
  let pieces := splitOnChar '.' filePath
  let extension := pieces.getLastD ""
  if filePath = extension then false
  else ["ink", "ink2"].contains extension

/-- Embedding of `isInkFile` from `src/helpers/utils.ts` (lines 56-76 of
the concatenated file): when `allowDirectories` is false, `lstatSync` is
called — a missing path throws, is caught, logs one warning and yields
`false`, and a directory yields `false`; in every other case only the
extension test runs. Result: (returned boolean, number of warnings
logged). -/
def isInkFile (fs : FileSystem) (filePath : String) (allowDirectories : Bool) : Bool × Nat :=
  if !allowDirectories then
    match fs filePath with
    | none => (false, 1)
    | some FsEntry.dir => (false, 0)
    | some FsEntry.file => (inkExtensionCheck filePath, 0)
  else (inkExtensionCheck filePath, 0)

/-! ## OutputParser: `parseErrorsOrRenderStory` (src/inklecate.ts lines 334-416)

The loop classifies each (trimmed) line of a stdout chunk with five
regular expressions tried in the order of the `if` chain: diagnostic,
tag, choice, prompt, end-of-story, otherwise plain text. The diagnostic
pattern is
`^(ERROR|WARNING|RUNTIME ERROR|RUNTIME WARNING|TODO): ('([^']+)' )?line (\d+): (.+)`.
When the optional quoted-subpath group does not participate, capture 3 is
`undefined` and `Path.join(workspacePath, prefix, undefined)` throws a
`TypeError`; the model returns `Except.error ()` for that case (render
events emitted before the exception are not recorded by the model — no
claim depends on them). -/

/-- Result of the diagnostic regular expression: capture 1 (the kind
text), capture 3 (the optional quoted subpath), capture 4 (the line
number digits) and capture 5 (the message). -/
structure ErrorMatch where
  kind : String
  subpath : Option String
  lineDigits : String
  message : String
deriving DecidableEq, Repr

/-- Parse `line (\d+): (.+)` at the head of `l`. -/
def parseAfterLine (l : List Char) : Option (String × String) :=
  if ("line ".data).isPrefixOf l then
    let r := l.drop 5
    let digits := r.takeWhile Char.isDigit
    if digits.isEmpty then none
    else
      match r.drop digits.length with
      | ':' :: ' ' :: msg => if msg.isEmpty then none else some (⟨digits⟩, ⟨msg⟩)
      | _ => none
  else none

/-- Parse the optional group `'([^']+)' ` at the head of `l`, returning
the capture and the remainder after the closing quote and space. -/
def parseQuoted (l : List Char) : Option (String × List Char) :=
  match l with
  | '\'' :: rest =>
    let content := rest.takeWhile (fun c => ¬(c = '\''))
    if content.isEmpty then none
    else
      match rest.drop content.length with
      | '\'' :: ' ' :: after => some (⟨content⟩, after)
      | _ => none
  | _ => none

/-- The five kind alternatives, in the pattern's alternation order (their
first characters are pairwise incompatible, so ordered choice is
unambiguous). -/
def errorKinds : List String := ["ERROR", "WARNING", "RUNTIME ERROR", "RUNTIME WARNING", "TODO"]

/-- Match one of the kind alternatives followed by the literal `: ` at
the start of `l`; return the kind text and the remainder. -/
def kindHeadMatch (l : List Char) : Option (String × List Char) :=
  (errorKinds.find? (fun k => ((k ++ ": ").data).isPrefixOf l)).map
    (fun k => (k, l.drop (k.length + 2)))

/-- Full model of the diagnostic regular expression applied to a trimmed
line, including the regex engine's backtracking over the optional group:
if the quoted group matches but `line (\d+): (.+)` fails afterwards, the
engine retries with the group skipped. -/
def matchErrorLine (trimmedLine : String) : Option ErrorMatch :=
  match kindHeadMatch trimmedLine.data with
  | none => none
  | some (k, after) =>
    match parseQuoted after with
    | some (sub, rest) =>
      match parseAfterLine rest with
      | some (digits, msg) => some ⟨k, some sub, digits, msg⟩
      | none => (parseAfterLine after).map (fun dm => ⟨k, none, dm.1, dm.2⟩)
    | none => (parseAfterLine after).map (fun dm => ⟨k, none, dm.1, dm.2⟩)

/-- Model of `^(# tags:) (.+)`: the tag list is the remainder split on
`", "`. -/
def matchTagLine (trimmedLine : String) : Option (List String) :=
  if ("# tags: ".data).isPrefixOf trimmedLine.data then
    let rest : List Char := trimmedLine.data.drop 8
    if rest.isEmpty then none else some (String.splitOn ⟨rest⟩ ", ")
  else none

/-- Model of `^(\d+):\s*(.*)`: a numeric index, a colon, optional
whitespace, then the choice text. -/
def matchChoiceLine (trimmedLine : String) : Option (Nat × String) :=
  let digits := trimmedLine.data.takeWhile Char.isDigit
  if digits.isEmpty then none
  else
    match trimmedLine.data.drop digits.length with
    | ':' :: rest => some (parseNatDigits digits, ⟨rest.dropWhile isJsWs⟩)
    | _ => none

/-- Model of `^\?>`. -/
def isPromptLine (trimmedLine : String) : Bool :=
  ("?>".data).isPrefixOf trimmedLine.data

/-- Model of `^--- End of story ---`. -/
def isEndOfStoryLine (trimmedLine : String) : Bool :=
  ("--- End of story ---".data).isPrefixOf trimmedLine.data

/-- Calls made on the `StoryRenderer` while scanning, in order. -/
inductive RenderEvent
  | showText (text : String)
  | showTag (tags : List String)
  | showChoice (index : Nat) (text : String)
  | showPrompt
  | showEndOfStory
  | reportError (message : String)
deriving DecidableEq, Repr

/-- Processing of a single line of the loop body of
`parseErrorsOrRenderStory`. `isPlaying` is `true` exactly when a
`storyRenderer` is present (play mode). The result is the pair
(diagnostics pushed, renderer calls made), or `Except.error ()` when
`Path.join` is reached with the `undefined` capture 3. -/
def processLine (isPlaying : Bool) (workspaceFsPath mainStoryPathPrefix : String)
    (line : String) : Except Unit (List InkError × List RenderEvent) :=
  let trimmedLine := jsTrim line
  match matchErrorLine trimmedLine with
  | some m =>
    match m.subpath with
    | none => Except.error ()
    | some sub =>
      let path := pathJoin3 workspaceFsPath mainStoryPathPrefix sub
      match InkErrorType.parse m.kind with
      | some errorType =>
        if errorType = InkErrorType.RuntimeError ∨ errorType = InkErrorType.RuntimeWarning then
          if isPlaying then
            Except.ok ([], [RenderEvent.reportError
              (errorType.toStr ++ " while playing the story: " ++ m.message ++
                " (in '" ++ path ++ "' at line " ++ toString (parseNatDigits m.lineDigits.data) ++ ")")])
          else Except.ok ([], [])
        else
          Except.ok ([{ filePath := path
                        lineNumber := parseNatDigits m.lineDigits.data
                        message := m.message
                        type := errorType }], [])
      | none => Except.ok ([], [])
  | none =>
    match matchTagLine trimmedLine with
    | some tags => Except.ok ([], if isPlaying then [RenderEvent.showTag tags] else [])
    | none =>
      match matchChoiceLine trimmedLine with
      | some (index, text) =>
        Except.ok ([], if isPlaying then [RenderEvent.showChoice index text] else [])
      | none =>
        if isPromptLine trimmedLine then
          Except.ok ([], if isPlaying then [RenderEvent.showPrompt] else [])
        else if isEndOfStoryLine trimmedLine then
          Except.ok ([], if isPlaying then [RenderEvent.showEndOfStory] else [])
        else if line.length > 0 then
          Except.ok ([], if isPlaying then [RenderEvent.showText line] else [])
        else Except.ok ([], [])

/-- The scanning loop over the split lines: accumulate diagnostics and
renderer calls in order; an exception aborts the whole invocation. -/
def runLines (isPlaying : Bool) (workspaceFsPath mainStoryPathPrefix : String) :
    List String → Except Unit (List InkError × List RenderEvent)
  | [] => Except.ok ([], [])
  | l :: ls =>
    match processLine isPlaying workspaceFsPath mainStoryPathPrefix l with
    | Except.error e => Except.error e
    | Except.ok (errs, evs) =>
      match runLines isPlaying workspaceFsPath mainStoryPathPrefix ls with
      | Except.error e => Except.error e
      | Except.ok (errs2, evs2) => Except.ok (errs ++ errs2, evs ++ evs2)

/-- Embedding of `parseErrorsOrRenderStory`: strip the BOM, return
nothing for an empty chunk, otherwise split on newlines and scan. The
workspace's filesystem path stands for
`Uri.parse(workspace.folder.uri).fsPath`. -/
def parseErrorsOrRenderStory (text : String) (mainStoryPathPrefix workspaceFsPath : String)
    (isPlaying : Bool) : Except Unit (List InkError × List RenderEvent) :=
  let t := stripBom text
  if t.length = 0 then Except.ok ([], [])
  else runLines isPlaying workspaceFsPath mainStoryPathPrefix (splitOnChar '\n' t)

/-! ## Helper lemmas -/

theorem diagnosticsFor_nil (td : TextDoc) : diagnosticsFor td [] = [] := rfl

theorem diagnosticsFor_middle (td : TextDoc) (l1 l2 : List InkError) (e : InkError)
    (h : uriFsPath td.uri ≠ e.filePath) :
    diagnosticsFor td (l1 ++ e :: l2) = diagnosticsFor td (l1 ++ l2) := by
  simp [diagnosticsFor, List.filterMap_append, List.filterMap_cons, h]

theorem notify_nil (wsU sp : String) (errors : List InkError) :
    notifyClientAndPushDiagnostics [] wsU sp errors = [] := rfl

theorem notify_cons (td : TextDoc) (docs : List TextDoc) (wsU sp : String)
    (errors : List InkError) :
    notifyClientAndPushDiagnostics (td :: docs) wsU sp errors =
      ((if (diagnosticsFor td errors).length = 0 then
          [NotifyEvent.didCompileStory wsU ("file://" ++ sp)]
        else []) ++ [NotifyEvent.publishDiagnostics td.uri (diagnosticsFor td errors)]) ++
      notifyClientAndPushDiagnostics docs wsU sp errors := by
  simp [notifyClientAndPushDiagnostics]

theorem countDidCompile_append (a b : List NotifyEvent) :
    countDidCompile (a ++ b) = countDidCompile a + countDidCompile b := by
  simp [countDidCompile, List.countP_append]

theorem publishes_append (a b : List NotifyEvent) :
    publishes (a ++ b) = publishes a ++ publishes b := by
  simp [publishes, List.filterMap_append]

theorem publishes_notify (docs : List TextDoc) (wsU sp : String) (errors : List InkError) :
    publishes (notifyClientAndPushDiagnostics docs wsU sp errors) =
      docs.map (fun td => (td.uri, diagnosticsFor td errors)) := by
  induction docs with
  | nil => rfl
  | cons td docs ih =>
    rw [notify_cons, publishes_append, ih]
    by_cases h : (diagnosticsFor td errors).length = 0 <;> simp [publishes, h]

theorem countDidCompile_notify (docs : List TextDoc) (wsU sp : String) (errors : List InkError) :
    countDidCompile (notifyClientAndPushDiagnostics docs wsU sp errors) =
      (docs.filter (fun td => (diagnosticsFor td errors).isEmpty)).length := by
  induction docs with
  | nil => rfl
  | cons td docs ih =>
    rw [notify_cons, countDidCompile_append, ih]
    by_cases h : (diagnosticsFor td errors).length = 0
    · simp [countDidCompile, List.filter_cons, List.isEmpty_iff, List.length_eq_zero.mp h,
        Nat.add_comm]
    · have : ¬(diagnosticsFor td errors).isEmpty = true := by
        simpa [List.isEmpty_iff, List.length_eq_zero] using h
      simp [countDidCompile, List.filter_cons, this, h]

theorem notify_middle (docs : List TextDoc) (wsU sp : String) (l1 l2 : List InkError)
    (e : InkError) (h : ∀ td ∈ docs, uriFsPath td.uri ≠ e.filePath) :
    notifyClientAndPushDiagnostics docs wsU sp (l1 ++ e :: l2) =
      notifyClientAndPushDiagnostics docs wsU sp (l1 ++ l2) := by
  induction docs with
  | nil => rfl
  | cons td docs ih =>
    rw [notify_cons, notify_cons,
      diagnosticsFor_middle td l1 l2 e (h td (List.mem_cons_self td docs)),
      ih (fun d hd => h d (List.mem_cons_of_mem td hd))]

/-! ## Claim C8: severity mapping -/

/-- Claim C8 — confirmed. The severity mapping is total and deterministic
over the five kinds (it is a Lean function): Error and RuntimeError map to
severity Error, Warning and RuntimeWarning map to severity Warning, and
Todo maps to Information with the published message prefixed by
`Todo: `; non-Todo messages are published unchanged. -/
theorem claim_C8_severity_mapping :
    (getDiagnosticSeverityFromInkErrorType InkErrorType.Error = DiagnosticSeverity.Error ∧
     getDiagnosticSeverityFromInkErrorType InkErrorType.RuntimeError = DiagnosticSeverity.Error ∧
     getDiagnosticSeverityFromInkErrorType InkErrorType.Warning = DiagnosticSeverity.Warning ∧
     getDiagnosticSeverityFromInkErrorType InkErrorType.RuntimeWarning = DiagnosticSeverity.Warning ∧
     getDiagnosticSeverityFromInkErrorType InkErrorType.Todo = DiagnosticSeverity.Information) ∧
    (∀ e : InkError, (mkDiagnostic e).severity = getDiagnosticSeverityFromInkErrorType e.type) ∧
    (∀ e : InkError, e.type = InkErrorType.Todo →
      (mkDiagnostic e).message = "Todo: " ++ e.message) ∧
    (∀ e : InkError, e.type ≠ InkErrorType.Todo → (mkDiagnostic e).message = e.message) := by
  refine ⟨⟨rfl, rfl, rfl, rfl, rfl⟩, fun e => rfl, fun e h => ?_, fun e h => ?_⟩
  · simp [mkDiagnostic, h]
  · simp [mkDiagnostic, h]

/-- Witness for C8 at a concrete Todo error and a concrete Error error. -/
theorem claim_C8_severity_mapping_witness :
    (mkDiagnostic ⟨"/ws/a.ink", 3, "fix me", InkErrorType.Todo⟩).message = "Todo: " ++ "fix me" ∧
    (mkDiagnostic ⟨"/ws/a.ink", 3, "bad", InkErrorType.Error⟩).message = "bad" := by
  exact ⟨claim_C8_severity_mapping.2.2.1 ⟨"/ws/a.ink", 3, "fix me", InkErrorType.Todo⟩ rfl,
    claim_C8_severity_mapping.2.2.2 ⟨"/ws/a.ink", 3, "bad", InkErrorType.Error⟩ (by decide)⟩

/-! ## Claim C9: full fresh set published per open document -/

/-- Claim C9 — confirmed. In every compile cycle the publish step emits,
for every currently open document, exactly one diagnostics publication
whose payload is the complete freshly computed set for that document (in
document-manager order), and a cycle with zero errors publishes the empty
set for every open document, clearing stale diagnostics (LSP
`publishDiagnostics` replaces the previous set for the URI). -/
theorem claim_C9_full_set_published (docs : List TextDoc) (wsU sp : String)
    (errors : List InkError) :
    publishes (notifyClientAndPushDiagnostics docs wsU sp errors) =
      docs.map (fun td => (td.uri, diagnosticsFor td errors)) ∧
    publishes (notifyClientAndPushDiagnostics docs wsU sp []) =
      docs.map (fun td => (td.uri, ([] : List Diagnostic))) := by
  refine ⟨publishes_notify docs wsU sp errors, ?_⟩
  rw [publishes_notify docs wsU sp []]
  simp [diagnosticsFor_nil]

/-! ## Claim C10: diagnostics only for open documents -/

/-- Claim C10 — confirmed. Errors whose `filePath` equals no open
document's filesystem path contribute nothing to the emitted events
(removing such an error leaves the entire output unchanged), and with no
open documents the publish step emits no events at all — neither
diagnostics nor a `didCompileStory` notification. -/
theorem claim_C10_only_open_documents (docs : List TextDoc) (wsU sp : String)
    (l1 l2 : List InkError) (e : InkError) (errors : List InkError)
    (h : ∀ td ∈ docs, uriFsPath td.uri ≠ e.filePath) :
    notifyClientAndPushDiagnostics docs wsU sp (l1 ++ e :: l2) =
      notifyClientAndPushDiagnostics docs wsU sp (l1 ++ l2) ∧
    notifyClientAndPushDiagnostics [] wsU sp errors = [] :=
  ⟨notify_middle docs wsU sp l1 l2 e h, rfl⟩

/-- Witness for C10: an error for an unopened file changes nothing
concretely, and no documents open means no events. -/
theorem claim_C10_only_open_documents_witness :
    notifyClientAndPushDiagnostics [⟨"file:///ws/a.ink"⟩] "file:///ws" "/t/main.ink.json"
        ([] ++ (⟨"/ws/b.ink", 2, "bad", InkErrorType.Error⟩ : InkError) :: []) =
      notifyClientAndPushDiagnostics [⟨"file:///ws/a.ink"⟩] "file:///ws" "/t/main.ink.json"
        ([] ++ []) ∧
    notifyClientAndPushDiagnostics [] "file:///ws" "/t/main.ink.json"
        [⟨"/ws/b.ink", 2, "bad", InkErrorType.Error⟩] = [] := by
  exact claim_C10_only_open_documents [⟨"file:///ws/a.ink"⟩] "file:///ws" "/t/main.ink.json"
    [] [] ⟨"/ws/b.ink", 2, "bad", InkErrorType.Error⟩
    [⟨"/ws/b.ink", 2, "bad", InkErrorType.Error⟩] (by decide)

/-! ## Claim C2: didCompileStory multiplicity -/

/-- Claim C2 — counterexample. A compile cycle with zero tool-reported
errors and two open documents sends the `didCompileStory` notification
twice, not exactly once as the claim states: the notification is emitted
inside the per-document loop. -/
theorem claim_C2_counterexample :
    countDidCompile (notifyClientAndPushDiagnostics
      [⟨"file:///ws/a.ink"⟩, ⟨"file:///ws/b.ink"⟩] "file:///ws" "/t/main.ink.json" []) = 2 ∧
    ¬ countDidCompile (notifyClientAndPushDiagnostics
      [⟨"file:///ws/a.ink"⟩, ⟨"file:///ws/b.ink"⟩] "file:///ws" "/t/main.ink.json" []) = 1 := by
  constructor
  · rfl
  · decide

/-- Claim C2 as amended — `didCompileStory` is sent once per open
document whose freshly computed diagnostic set is empty: a cycle with
zero tool-reported errors sends one notification per open document
(exactly one only when exactly one document is open), and a cycle whose
errors all land in the sole open main document publishes exactly that
document's diagnostics and sends no `didCompileStory` notification. -/
theorem claim_C2_amended_didCompile_per_document (docs : List TextDoc) (wsU sp : String)
    (errors : List InkError) (d : TextDoc) :
    countDidCompile (notifyClientAndPushDiagnostics docs wsU sp errors) =
      (docs.filter (fun td => (diagnosticsFor td errors).isEmpty)).length ∧
    countDidCompile (notifyClientAndPushDiagnostics docs wsU sp []) = docs.length ∧
    (docs = [d] → diagnosticsFor d errors ≠ [] →
      countDidCompile (notifyClientAndPushDiagnostics docs wsU sp errors) = 0 ∧
      publishes (notifyClientAndPushDiagnostics docs wsU sp errors) =
        [(d.uri, diagnosticsFor d errors)]) := by
  refine ⟨countDidCompile_notify docs wsU sp errors, ?_, fun hdocs hne => ?_⟩
  · rw [countDidCompile_notify docs wsU sp []]
    simp [diagnosticsFor_nil]
  · subst hdocs
    refine ⟨?_, ?_⟩
    · rw [countDidCompile_notify]
      simp [List.filter_cons, List.isEmpty_iff, hne]
    · rw [publishes_notify]
      simp

/-- Witness for the amended C2: with a single open main document and one
error in it, zero notifications and exactly one publish with that single
diagnostic; with no errors, one notification. -/
theorem claim_C2_amended_didCompile_per_document_witness :
    countDidCompile (notifyClientAndPushDiagnostics [⟨"file:///ws/main.ink"⟩] "file:///ws"
      "/t/main.ink.json" [⟨"/ws/main.ink", 3, "bad syntax", InkErrorType.Error⟩]) = 0 ∧
    publishes (notifyClientAndPushDiagnostics [⟨"file:///ws/main.ink"⟩] "file:///ws"
      "/t/main.ink.json" [⟨"/ws/main.ink", 3, "bad syntax", InkErrorType.Error⟩]) =
      [(("file:///ws/main.ink" : String),
        diagnosticsFor ⟨"file:///ws/main.ink"⟩ [⟨"/ws/main.ink", 3, "bad syntax", InkErrorType.Error⟩])] := by
  exact (claim_C2_amended_didCompile_per_document [⟨"file:///ws/main.ink"⟩] "file:///ws"
    "/t/main.ink.json" [⟨"/ws/main.ink", 3, "bad syntax", InkErrorType.Error⟩]
    ⟨"file:///ws/main.ink"⟩).2.2 rfl (by decide)

/-! ## Claim C3: the singleton process slot -/

/-- Claim C3 — counterexample. Start process 1, then process 2 (which
replaces the slot), then let the superseded process 1 exit: its exit
listener assigns `undefined` unconditionally, so the slot does not keep
process 2 — `chooseOption` no longer reaches the still-running newest
process, contradicting the claim that a superseded older process's exit
leaves the newer slot intact. -/
theorem claim_C3_counterexample :
    runTrace [ProcEvent.spawn 1, ProcEvent.spawn 2, ProcEvent.exited 1] = none ∧
    ¬ runTrace [ProcEvent.spawn 1, ProcEvent.spawn 2, ProcEvent.exited 1] = some 2 ∧
    chooseOption (runTrace [ProcEvent.spawn 1, ProcEvent.spawn 2, ProcEvent.exited 1]) 0 = [] := by
  exact ⟨rfl, by decide, rfl⟩

/-- Claim C3 as amended — starting a new process replaces the slot, so
`submitChoice` reaches exactly the most recently started process; but the
exit of ANY spawned process — the current one or a superseded older one —
clears the slot unconditionally, after which `submitChoice` is a no-op
until the next spawn. Clearing is idempotent (a second exit leaves the
slot unchanged). -/
theorem claim_C3_amended_slot_clearing (tr : List ProcEvent) (p q : Nat) (i : Nat) :
    runTrace (tr ++ [ProcEvent.spawn p]) = some p ∧
    chooseOption (runTrace (tr ++ [ProcEvent.spawn p])) i = [(p, i)] ∧
    runTrace (tr ++ [ProcEvent.exited p]) = none ∧
    chooseOption (runTrace (tr ++ [ProcEvent.exited p])) i = [] ∧
    runTrace (tr ++ [ProcEvent.exited p, ProcEvent.exited q]) =
      runTrace (tr ++ [ProcEvent.exited p]) := by
  refine ⟨?_, ?_, ?_, ?_, ?_⟩ <;>
    simp [runTrace, List.foldl_append, slotStep, chooseOption]

/-! ## Claim C5: the play-story command -/

/-- Claim C5 — the code diverges from it (code bug). With a ready
workspace, the play-story command path
(`playStory` → `executeCompileCommand(documentPath, workspace, true)`)
invokes `compiler.compileStory`, never `runner.runStory`: the spawned
process receives the compile-mode arguments `-o <story>.json <story>`
and not the interactive-play flag `-p` that `runStory` would produce.
The `StoryRenderer` built for the play case is dead code. -/
theorem claim_C5_play_command_compiles :
    executeCompileCommand true true = some BackendCall.compile ∧
    commandRunnerSpawnArgs true true false "inklecate" "/tmp/main.ink.json" "/tmp/main.ink" =
      some ["-o", "/tmp/main.ink.json", "/tmp/main.ink"] ∧
    spawnInklecateArgs true false "inklecate" "/tmp/main.ink.json" "/tmp/main.ink" =
      ["-p", "/tmp/main.ink"] ∧
    ¬ ("-p" ∈ (["-o", "/tmp/main.ink.json", "/tmp/main.ink"] : List String)) := by
  exact ⟨rfl, rfl, rfl, by decide⟩

/-! ## Claim C6: isInkFile -/

/-- Claim C6 — counterexample. With `allowDirectories = true` the path is
never passed to `lstatSync`, so a non-existent `foo.ink` is accepted with
no warning logged — the claim demanded rejection (with a single warning)
for every value of `allowDirectories`. -/
theorem claim_C6_counterexample :
    isInkFile (fun _ => none) "foo.ink" true = (true, 0) ∧
    ¬ isInkFile (fun _ => none) "foo.ink" true = (false, 1) := by
  exact ⟨rfl, by simp [isInkFile]⟩

/-- Claim C6 as amended — only when `allowDirectories` is false is the
path stat'ed: a non-existent path is then rejected with exactly one
logged warning and no exception (the function is total), and an existing
directory is rejected; when `allowDirectories` is true the extension rule
alone decides. At most one warning is ever logged. The extension rule
behaves as claimed: a bare name equal to its own extension (`ink`) is
rejected, `foo.ink` and `foo.bar.ink2` are accepted, `foo.txt` is
rejected. -/
theorem claim_C6_amended_isInkFile (fs : FileSystem) (path : String)
    (hmissing : fs path = none) :
    isInkFile fs path false = (false, 1) ∧
    (∀ fs2 : FileSystem, ∀ p2, fs2 p2 = some FsEntry.dir → isInkFile fs2 p2 false = (false, 0)) ∧
    (∀ fs2 : FileSystem, ∀ p2, fs2 p2 = some FsEntry.file →
      isInkFile fs2 p2 false = (inkExtensionCheck p2, 0)) ∧
    (∀ fs2 : FileSystem, ∀ p2, isInkFile fs2 p2 true = (inkExtensionCheck p2, 0)) ∧
    (∀ fs2 : FileSystem, ∀ p2 b, (isInkFile fs2 p2 b).2 ≤ 1) ∧
    (inkExtensionCheck "ink" = false ∧ inkExtensionCheck "foo.ink" = true ∧
     inkExtensionCheck "foo.bar.ink2" = true ∧ inkExtensionCheck "foo.txt" = false) := by
  refine ⟨by simp [isInkFile, hmissing], fun fs2 p2 h => by simp [isInkFile, h],
    fun fs2 p2 h => by simp [isInkFile, h], fun fs2 p2 => rfl, fun fs2 p2 b => ?_,
    by decide, by decide, by decide, by decide⟩
  cases b
  · cases h : fs2 p2 with
    | none => simp [isInkFile, h]
    | some entry => cases entry <;> simp [isInkFile, h]
  · simp [isInkFile]

/-- Witness for the amended C6 at the empty file system: a non-existent
path with `allowDirectories = false` is rejected with one warning. -/
theorem claim_C6_amended_isInkFile_witness :
    isInkFile (fun _ => none) "nofile.ink" false = (false, 1) :=
  (claim_C6_amended_isInkFile (fun _ => none) "nofile.ink" rfl).1

/-! ## Claims C1 and C4: the output parser -/

deriving instance DecidableEq for Except

theorem parse_kind_error : InkErrorType.parse "ERROR" = some InkErrorType.Error := rfl

theorem parse_kind_warning : InkErrorType.parse "WARNING" = some InkErrorType.Warning := rfl

theorem parse_kind_rerror :
    InkErrorType.parse "RUNTIME ERROR" = some InkErrorType.RuntimeError := rfl

theorem parse_kind_rwarning :
    InkErrorType.parse "RUNTIME WARNING" = some InkErrorType.RuntimeWarning := rfl

theorem parse_kind_todo : InkErrorType.parse "TODO" = some InkErrorType.Todo := rfl

/-- Claim C1 — counterexample. In compile mode (no story renderer) a
`RUNTIME ERROR` diagnostic line produces NO `DiagnosticRecord` — the
branch for the runtime kinds only ever talks to the story renderer —
whereas the same line with kind `ERROR` does produce one. The claim said
the runtime kinds are returned as diagnostics in compile mode just like
the other kinds. -/
theorem claim_C1_counterexample :
    parseErrorsOrRenderStory "RUNTIME ERROR: 'a.ink' line 3: boom" "." "/ws" false =
      Except.ok ([], []) ∧
    parseErrorsOrRenderStory "ERROR: 'a.ink' line 3: boom" "." "/ws" false =
      Except.ok ([⟨"/ws/a.ink", 3, "boom", InkErrorType.Error⟩], []) := ⟨rfl, rfl⟩

/-- Claim C1 as amended — a diagnostic line of kind RuntimeError or
RuntimeWarning (carrying the quoted file component) never yields a
`DiagnosticRecord`: in play mode it is forwarded as a runtime-error event,
and in compile mode it is dropped entirely (no diagnostic, no event); the
other three kinds yield the same single `DiagnosticRecord` in both
modes. -/
theorem claim_C1_amended_runtime_error_routing
    (line ws pre : String) (m : ErrorMatch) (sub : String)
    (hm : matchErrorLine (jsTrim line) = some m)
    (hsub : m.subpath = some sub) :
    ((m.kind = "RUNTIME ERROR" ∨ m.kind = "RUNTIME WARNING") →
      processLine false ws pre line = Except.ok ([], []) ∧
      ∃ msg, processLine true ws pre line = Except.ok ([], [RenderEvent.reportError msg])) ∧
    ((m.kind = "ERROR" ∨ m.kind = "WARNING" ∨ m.kind = "TODO") →
      ∃ rec, processLine false ws pre line = Except.ok ([rec], []) ∧
        processLine true ws pre line = Except.ok ([rec], [])) := by
  constructor
  · rintro (hk | hk)
    · refine ⟨by simp [processLine, hm, hsub, hk, parse_kind_rerror],
        ⟨InkErrorType.RuntimeError.toStr ++ " while playing the story: " ++ m.message ++
          " (in '" ++ pathJoin3 ws pre sub ++ "' at line " ++
          toString (parseNatDigits m.lineDigits.data) ++ ")", ?_⟩⟩
      simp [processLine, hm, hsub, hk, parse_kind_rerror]
    · refine ⟨by simp [processLine, hm, hsub, hk, parse_kind_rwarning],
        ⟨InkErrorType.RuntimeWarning.toStr ++ " while playing the story: " ++ m.message ++
          " (in '" ++ pathJoin3 ws pre sub ++ "' at line " ++
          toString (parseNatDigits m.lineDigits.data) ++ ")", ?_⟩⟩
      simp [processLine, hm, hsub, hk, parse_kind_rwarning]
  · rintro (hk | hk | hk)
    · refine ⟨⟨pathJoin3 ws pre sub, parseNatDigits m.lineDigits.data, m.message,
        InkErrorType.Error⟩, ?_, ?_⟩ <;>
        simp [processLine, hm, hsub, hk, parse_kind_error]
    · refine ⟨⟨pathJoin3 ws pre sub, parseNatDigits m.lineDigits.data, m.message,
        InkErrorType.Warning⟩, ?_, ?_⟩ <;>
        simp [processLine, hm, hsub, hk, parse_kind_warning]
    · refine ⟨⟨pathJoin3 ws pre sub, parseNatDigits m.lineDigits.data, m.message,
        InkErrorType.Todo⟩, ?_, ?_⟩ <;>
        simp [processLine, hm, hsub, hk, parse_kind_todo]

/-- Witness for the amended C1 at a concrete runtime-error line and a
concrete ordinary error line. -/
theorem claim_C1_amended_runtime_error_routing_witness :
    matchErrorLine (jsTrim "RUNTIME ERROR: 'a.ink' line 3: boom") =
      some ⟨"RUNTIME ERROR", some "a.ink", "3", "boom"⟩ ∧
    (processLine false "/ws" "." "RUNTIME ERROR: 'a.ink' line 3: boom" = Except.ok ([], []) ∧
      ∃ msg, processLine true "/ws" "." "RUNTIME ERROR: 'a.ink' line 3: boom" =
        Except.ok ([], [RenderEvent.reportError msg])) := by
  exact ⟨rfl,
    (claim_C1_amended_runtime_error_routing "RUNTIME ERROR: 'a.ink' line 3: boom" "/ws" "."
      ⟨"RUNTIME ERROR", some "a.ink", "3", "boom"⟩ "a.ink" rfl rfl).1 (Or.inl rfl)⟩

/-- Claim C4 — counterexample. In compile mode the scan does NOT stop at
the first non-matching non-empty line: a diagnostic line occurring after
the plain-text line `plain text` still contributes its
`DiagnosticRecord`. -/
theorem claim_C4_counterexample :
    parseErrorsOrRenderStory "plain text\nERROR: 'a.ink' line 2: msg" "." "/ws" false =
      Except.ok ([⟨"/ws/a.ink", 2, "msg", InkErrorType.Error⟩], []) ∧
    ¬ parseErrorsOrRenderStory "plain text\nERROR: 'a.ink' line 2: msg" "." "/ws" false =
      Except.ok ([], []) := ⟨rfl, by decide⟩

/-- Claim C4 as amended — in compile mode a non-empty line that matches
none of the structured forms does not terminate diagnostic collection: it
contributes nothing and scanning continues, so deleting (or inserting)
such a line anywhere in the invocation leaves the parse result
unchanged, and diagnostic lines after it still contribute. -/
theorem claim_C4_amended_plain_lines_ignored
    (ws pre plain : String) (lpre lpost : List String)
    (h1 : matchErrorLine (jsTrim plain) = none)
    (h2 : matchTagLine (jsTrim plain) = none)
    (h3 : matchChoiceLine (jsTrim plain) = none)
    (h4 : isPromptLine (jsTrim plain) = false)
    (h5 : isEndOfStoryLine (jsTrim plain) = false)
    (h6 : plain ≠ "") :
    runLines false ws pre (lpre ++ plain :: lpost) = runLines false ws pre (lpre ++ lpost) := by
  have hp : processLine false ws pre plain = Except.ok ([], []) := by
    simp [processLine, h1, h2, h3, h4, h5]
  induction lpre with
  | nil =>
    cases hr : runLines false ws pre lpost <;> simp [runLines, hp, hr]
  | cons l lpre ih =>
    cases hl : processLine false ws pre l <;> simp [runLines, hl, ih]

/-- Witness for the amended C4: inserting the plain-text line before a
diagnostic line changes nothing. -/
theorem claim_C4_amended_plain_lines_ignored_witness :
    matchErrorLine (jsTrim "plain text") = none ∧
    matchTagLine (jsTrim "plain text") = none ∧
    matchChoiceLine (jsTrim "plain text") = none ∧
    isPromptLine (jsTrim "plain text") = false ∧
    isEndOfStoryLine (jsTrim "plain text") = false ∧
    ("plain text" : String) ≠ "" ∧
    runLines false "/ws" "." ([] ++ "plain text" :: ["ERROR: 'a.ink' line 2: msg"]) =
      runLines false "/ws" "." ([] ++ ["ERROR: 'a.ink' line 2: msg"]) := by
  exact ⟨rfl, rfl, rfl, rfl, rfl, by decide,
    claim_C4_amended_plain_lines_ignored "/ws" "." "plain text" []
      ["ERROR: 'a.ink' line 2: msg"] rfl rfl rfl rfl rfl (by decide)⟩

/-! ## Claim C7: isFilePathChildOfDirPath -/

theorem splitCharList_ne_nil (sep : Char) (l : List Char) : splitCharList sep l ≠ [] := by
  induction l with
  | nil => simp [splitCharList]
  | cons c cs ih =>
    by_cases h : c = sep
    · simp [splitCharList, h]
    · simp only [splitCharList, if_neg h]
      cases hr : splitCharList sep cs with
      | nil => simp
      | cons x xs => simp

theorem mem_splitCharList_not_mem (sep : Char) (l : List Char) (piece : List Char)
    (h : piece ∈ splitCharList sep l) : sep ∉ piece := by
  induction l generalizing piece with
  | nil =>
    simp [splitCharList] at h
    simp [h]
  | cons c cs ih =>
    by_cases hc : c = sep
    · simp only [splitCharList, if_pos hc] at h
      rcases List.mem_cons.mp h with h | h
      · simp [h]
      · exact ih piece h
    · simp only [splitCharList, if_neg hc] at h
      cases hr : splitCharList sep cs with
      | nil => exact absurd hr (splitCharList_ne_nil sep cs)
      | cons x xs =>
        rw [hr] at h
        rcases List.mem_cons.mp h with h | h
        · subst h
          intro hmem
          rcases List.mem_cons.mp hmem with h | h
          · exact hc h.symm
          · exact ih x (hr ▸ List.mem_cons_self x xs) h
        · exact ih piece (hr ▸ List.mem_cons_of_mem x h)

theorem mem_splitOnChar_slash_free (s : String) (x : String)
    (h : x ∈ splitOnChar '/' s) : '/' ∉ x.data := by
  rcases List.mem_map.mp h with ⟨piece, hmem, hx⟩
  subst hx
  exact mem_splitCharList_not_mem '/' s.data piece hmem

theorem resolveInto_valid (l : List String) (stack : List String)
    (hs : ∀ x ∈ stack, validSeg x) (hl : ∀ x ∈ l, '/' ∉ x.data) :
    ∀ x ∈ resolveInto stack l, validSeg x := by
  induction l generalizing stack with
  | nil =>
    intro x hx
    simp only [resolveInto, List.mem_reverse] at hx
    exact hs x hx
  | cons seg rest ih =>
    intro x hx
    by_cases h1 : seg = "" ∨ seg = "."
    · rw [show resolveInto stack (seg :: rest) = resolveInto stack rest by
        simp [resolveInto, h1]] at hx
      exact ih stack hs (fun y hy => hl y (List.mem_cons_of_mem seg hy)) x hx
    · by_cases h2 : seg = ".."
      · rw [show resolveInto stack (seg :: rest) = resolveInto stack.tail rest by
          simp [resolveInto, h1, h2]] at hx
        exact ih stack.tail (fun y hy => hs y (List.mem_of_mem_tail hy))
          (fun y hy => hl y (List.mem_cons_of_mem seg hy)) x hx
      · rw [show resolveInto stack (seg :: rest) = resolveInto (seg :: stack) rest by
          simp [resolveInto, h1, h2]] at hx
        refine ih (seg :: stack) ?_ (fun y hy => hl y (List.mem_cons_of_mem seg hy)) x hx
        intro y hy
        rcases List.mem_cons.mp hy with hy | hy
        · subst hy
          exact ⟨fun h => h1 (Or.inl h), fun h => h1 (Or.inr h), h2,
            hl y (List.mem_cons_self y rest)⟩
        · exact hs y hy

theorem resolvePosix_valid (s : String) : ∀ x ∈ resolvePosix s, validSeg x :=
  resolveInto_valid (splitOnChar '/' s) [] (by simp)
    (fun x hx => mem_splitOnChar_slash_free s x hx)

theorem cpl_le_left (F T : List String) : cpl F T ≤ F.length := by
  induction F generalizing T with
  | nil => cases T <;> simp [cpl]
  | cons a as ih =>
    cases T with
    | nil => simp [cpl]
    | cons b bs =>
      by_cases hab : a = b
      · simpa [cpl, hab] using ih bs
      · simp [cpl, hab]

theorem cpl_eq_length_iff (F T : List String) : cpl F T = F.length ↔ F <+: T := by
  induction F generalizing T with
  | nil => cases T <;> simp [cpl]
  | cons a as ih =>
    cases T with
    | nil => simp [cpl]
    | cons b bs =>
      by_cases hab : a = b
      · subst hab
        have hc : cpl (a :: as) (a :: bs) = cpl as bs + 1 := by simp [cpl]
        rw [hc, List.length_cons, List.cons_prefix_cons]
        simp only [true_and]
        rw [← ih bs]
        omega
      · simp [cpl, hab, List.cons_prefix_cons]

theorem nodeRelativeSegs_ancestor (F T : List String) (h : F <+: T) :
    nodeRelativeSegs F T = T.drop F.length := by
  simp [nodeRelativeSegs, (cpl_eq_length_iff F T).mpr h]

theorem nodeRelativeSegs_notAncestor (F T : List String) (h : ¬ F <+: T) :
    ∃ rest, nodeRelativeSegs F T = ".." :: rest := by
  have hne : cpl F T ≠ F.length := fun hc => h ((cpl_eq_length_iff F T).mp hc)
  have hlt : cpl F T < F.length := lt_of_le_of_ne (cpl_le_left F T) hne
  obtain ⟨k, hk⟩ : ∃ k, F.length - cpl F T = k + 1 := ⟨F.length - cpl F T - 1, by omega⟩
  refine ⟨List.replicate k ".." ++ T.drop (cpl F T), ?_⟩
  rw [nodeRelativeSegs, hk, List.replicate_succ, List.cons_append]

theorem str_eq_empty_iff (s : String) : s = "" ↔ s.data = [] := by
  constructor
  · intro h; subst h; rfl
  · intro h
    cases s with
    | mk d =>
      simp only at h
      subst h
      rfl

theorem joinSlash_data_cons (h x : String) (t : List String) :
    (joinSlash (h :: x :: t)).data = h.data ++ '/' :: (joinSlash (x :: t)).data := by
  show (h ++ "/" ++ joinSlash (x :: t)).data = _
  simp [String.data_append]

theorem joinSlash_ne_empty (h : String) (t : List String) (hh : h ≠ "") :
    joinSlash (h :: t) ≠ "" := by
  cases t with
  | nil => exact hh
  | cons x xs =>
    intro hcon
    have := (str_eq_empty_iff _).mp hcon
    rw [joinSlash_data_cons] at this
    have hd := (str_eq_empty_iff h).not.mp hh
    cases hdata : h.data with
    | nil => exact hd hdata
    | cons c cs => rw [hdata] at this; simp at this

theorem jsStartsWith_joinSlash_dots (h : String) (t : List String) (hh : h ≠ "") :
    jsStartsWith (joinSlash (h :: t)) ".." = jsStartsWith h ".." := by
  cases t with
  | nil => rfl
  | cons x xs =>
    have hd := (str_eq_empty_iff h).not.mp hh
    unfold jsStartsWith
    rw [joinSlash_data_cons]
    cases hdata : h.data with
    | nil => exact absurd hdata hd
    | cons c cs =>
      cases cs with
      | nil => simp [List.isPrefixOf, show "..".data = ['.', '.'] from rfl]
      | cons c2 cs2 => simp [List.isPrefixOf, show "..".data = ['.', '.'] from rfl]

theorem jsStartsWith_joinSlash_slash (h : String) (t : List String) (hh : h ≠ "") :
    jsStartsWith (joinSlash (h :: t)) "/" = jsStartsWith h "/" := by
  cases t with
  | nil => rfl
  | cons x xs =>
    have hd := (str_eq_empty_iff h).not.mp hh
    unfold jsStartsWith
    rw [joinSlash_data_cons]
    cases hdata : h.data with
    | nil => exact absurd hdata hd
    | cons c cs => simp [List.isPrefixOf, show "/".data = ['/'] from rfl]

theorem jsStartsWith_slash_false (h : String) (hh : h ≠ "") (hfree : '/' ∉ h.data) :
    jsStartsWith h "/" = false := by
  have hd := (str_eq_empty_iff h).not.mp hh
  unfold jsStartsWith
  cases hdata : h.data with
  | nil => exact absurd hdata hd
  | cons c cs =>
    have hcslash : c ≠ '/' := by
      intro hc
      exact hfree (hdata ▸ (hc ▸ List.mem_cons_self c cs))
    simp only [List.isPrefixOf, show "/".data = ['/'] from rfl, Bool.and_eq_false_iff,
      beq_eq_false_iff_ne, ne_eq]
    exact Or.inl fun hcc => hcslash hcc.symm

theorem relSegsCharacterization (F T : List String) (hT : ∀ x ∈ T, validSeg x) :
    (joinSlash (nodeRelativeSegs F T) ≠ "" ∧
     jsStartsWith (joinSlash (nodeRelativeSegs F T)) ".." = false ∧
     jsStartsWith (joinSlash (nodeRelativeSegs F T)) "/" = false) ↔
    (F <+: T ∧ F ≠ T ∧
     jsStartsWith ((T.drop F.length).headD "") ".." = false) := by
  by_cases hpre : F <+: T
  · rw [nodeRelativeSegs_ancestor F T hpre]
    by_cases heq : F = T
    · subst heq
      rw [List.drop_length]
      simp [joinSlash]
    · have hlt : F.length < T.length := by
        rcases Nat.lt_or_ge F.length T.length with h | h
        · exact h
        · exact absurd (hpre.eq_of_length (Nat.le_antisymm hpre.length_le h)) heq
      have hne : T.drop F.length ≠ [] := by
        intro hnil
        have := congrArg List.length hnil
        simp only [List.length_drop, List.length_nil] at this
        omega
      obtain ⟨h, t', hht⟩ := List.exists_cons_of_ne_nil hne
      have hmem : h ∈ T := List.drop_subset F.length T (hht ▸ List.mem_cons_self h t')
      have hv := hT h hmem
      rw [hht]
      simp only [List.headD_cons]
      rw [jsStartsWith_joinSlash_dots h t' hv.1, jsStartsWith_joinSlash_slash h t' hv.1,
        jsStartsWith_slash_false h hv.1 hv.2.2.2]
      simp [joinSlash_ne_empty h t' hv.1, hpre, heq]
  · obtain ⟨rest, hrest⟩ := nodeRelativeSegs_notAncestor F T hpre
    rw [hrest]
    have hdots : jsStartsWith (joinSlash (".." :: rest)) ".." = true := by
      rw [jsStartsWith_joinSlash_dots ".." rest (by decide)]
      rfl
    simp [hdots, hpre]

/-- Claim C7 — counterexample. With `dirPath = "/a"` and
`filePath = "/a/..b"` the resolved relative path is the single segment
`..b`, which lies strictly within `/a`'s tree, yet
`relative.startsWith("..")` sees the two-character string prefix `..` and
the function returns false — refuting the claimed equivalence with
"lies strictly within the resolved tree" (the code's check is a string
prefix, not a parent-traversal segment test). -/
theorem claim_C7_counterexample :
    isFilePathChildOfDirPath "/a/..b" "/a" = false ∧ strictlyWithin "/a/..b" "/a" := by
  refine ⟨rfl, ⟨["..b"], rfl⟩, ?_⟩
  decide

/-- Claim C7 as amended — for all paths, `isFilePathChildOfDirPath(p, d)`
is true iff `p`, after `..` resolution, lies strictly within `d`'s
resolved tree AND the first segment of `p` below `d` does not itself
begin with the two-character string `..` (the code's
`relative.startsWith("..")` also rejects sibling names that merely start
with two dots). -/
theorem claim_C7_amended_child_path_iff (filePath dirPath : String) :
    isFilePathChildOfDirPath filePath dirPath = true ↔
    (strictlyWithin filePath dirPath ∧
     jsStartsWith (((resolvePosix filePath).drop (resolvePosix dirPath).length).headD "")
       ".." = false) := by
  have hchar := relSegsCharacterization (resolvePosix dirPath) (resolvePosix filePath)
    (resolvePosix_valid filePath)
  simp only [isFilePathChildOfDirPath, nodeRelative, posixIsAbsolute, Bool.and_eq_true,
    Bool.not_eq_true', beq_eq_false_iff_ne]
  unfold strictlyWithin
  rw [and_assoc, and_assoc]
  exact hchar
